import Mathlib

/-!
Verification of the Commit Ingestion, Scoring & Period Aggregation Engine
of TheGitLeague backend, as a shallow embedding of the Python source
(`backend/app/utils/scoring.py`, `backend/app/schemas/sync.py`,
`backend/app/services/sync.py`, `backend/app/services/leaderboard.py`,
`backend/app/services/award.py`).  Python ints are modelled as `Int`,
floats as `Rat`, dates as explicit Gregorian calendar records, and the
database as in-memory lists of rows.
-/

namespace GitLeague

/-- Truncation of a rational toward zero, the semantics of Python `int(...)`
applied to a float. -/
def ratTrunc (q : ℚ) : ℤ := if q < 0 then -((-q).floor) else q.floor

/-- Decides whether `p` is a leading block of `s` (character lists). -/
def charListHasPre : List Char → List Char → Bool
  | _, [] => true
  | [], _ :: _ => false
  | a :: s, b :: p => a == b && charListHasPre s p

/-- Decides whether `p` occurs contiguously inside `s` (character lists),
the semantics of Python `p in s` on strings. -/
def charListHasSub : List Char → List Char → Bool
  | [], p => p.isEmpty
  | a :: s, p => charListHasPre (a :: s) p || charListHasSub s p

/-- Python `pat in s` for strings. -/
def strContainsSub (s pat : String) : Bool :=
  charListHasSub s.toList pat.toList

/-- Python `s.lower()` (ASCII), structurally recursive over the character
list. -/
def strToLower (s : String) : String :=
  String.mk (s.toList.map Char.toLower)

/-- Equality test on `Except` values. -/
instance {ε α : Type} [DecidableEq ε] [DecidableEq α] : DecidableEq (Except ε α) := fun a b =>
  match a, b with
  | .error e, .error f =>
    if h : e = f then isTrue (by rw [h]) else isFalse (by intro hh; cases hh; exact h rfl)
  | .ok x, .ok y =>
    if h : x = y then isTrue (by rw [h]) else isFalse (by intro hh; cases hh; exact h rfl)
  | .error _, .ok _ => isFalse (by intro hh; cases hh)
  | .ok _, .error _ => isFalse (by intro hh; cases hh)

/-- A Gregorian calendar date, modelling Python `datetime.date`. -/
structure Date where
  year : ℤ
  month : ℤ
  day : ℤ
deriving DecidableEq

instance : LE Date :=
  ⟨fun a b => a.year < b.year ∨ (a.year = b.year ∧
    (a.month < b.month ∨ (a.month = b.month ∧ a.day ≤ b.day)))⟩

instance : LT Date :=
  ⟨fun a b => a.year < b.year ∨ (a.year = b.year ∧
    (a.month < b.month ∨ (a.month = b.month ∧ a.day < b.day)))⟩

instance (a b : Date) : Decidable (a ≤ b) :=
  inferInstanceAs (Decidable (_ ∨ _))

instance (a b : Date) : Decidable (a < b) :=
  inferInstanceAs (Decidable (_ ∨ _))

/-- Gregorian leap-year rule, as used by Python's `datetime`. -/
def isLeapYear (y : ℤ) : Bool :=
  decide ((y % 4 = 0 ∧ y % 100 ≠ 0) ∨ y % 400 = 0)

/-- Number of days in a Gregorian month. -/
def daysInMonth (y m : ℤ) : ℤ :=
  if m = 2 then (if isLeapYear y then 29 else 28)
  else if m = 4 ∨ m = 6 ∨ m = 9 ∨ m = 11 then 30
  else 31

/-- The previous calendar day. -/
def Date.predD (d : Date) : Date :=
  if 1 < d.day then ⟨d.year, d.month, d.day - 1⟩
  else if 1 < d.month then ⟨d.year, d.month - 1, daysInMonth d.year (d.month - 1)⟩
  else ⟨d.year - 1, 12, 31⟩

/-- The next calendar day. -/
def Date.succD (d : Date) : Date :=
  if d.day < daysInMonth d.year d.month then ⟨d.year, d.month, d.day + 1⟩
  else if d.month < 12 then ⟨d.year, d.month + 1, 1⟩
  else ⟨d.year + 1, 1, 1⟩

/-- Python `d - timedelta(days=n)` for `n ≥ 0`. -/
def Date.subDays (d : Date) (n : ℕ) : Date := Date.predD^[n] d

/-- Python `d + timedelta(days=n)` for `n ≥ 0`. -/
def Date.addDays (d : Date) (n : ℕ) : Date := Date.succD^[n] d

/-- Scoring coefficients, from the dataclass `ScoringCoefficients` in
`backend/app/utils/scoring.py` (float fields as `Rat`, int fields as `Int`). -/
structure ScoringCoefficients where
  additions_weight : ℚ
  deletions_weight : ℚ
  commit_base : ℤ
  multi_file_bonus : ℤ
  fix_bonus : ℤ
  wip_penalty : ℤ
  max_additions_cap : ℤ
  max_deletions_cap : ℤ
deriving DecidableEq

/-- The documented default coefficients (dataclass field defaults). -/
def defaultCoefficients : ScoringCoefficients :=
  { additions_weight := 1
    deletions_weight := 6/10
    commit_base := 10
    multi_file_bonus := 5
    fix_bonus := 15
    wip_penalty := -10
    max_additions_cap := 1000
    max_deletions_cap := 1000 }

/-- A stored commit row, from the model `Commit` in
`backend/app/models/commit.py` (the fields the scoring engine reads). -/
structure Commit where
  sha : String
  repo_id : String
  author_email : String
  commit_date : Date
  message_title : String
  additions : ℤ
  deletions : ℤ
  files_changed : ℤ
  is_merge : Bool
deriving DecidableEq

/-- Source: `calculate_pts` in `backend/app/utils/scoring.py`:
`int(base + min(additions, max_additions_cap) * additions_weight)`. -/
def calculate_pts (c : Commit) (k : ScoringCoefficients) : ℤ :=
  ratTrunc ((k.commit_base : ℚ) + ((min c.additions k.max_additions_cap : ℤ) : ℚ) * k.additions_weight)

/-- Source: `calculate_reb`:
`int(min(deletions, max_deletions_cap) * deletions_weight)`. -/
def calculate_reb (c : Commit) (k : ScoringCoefficients) : ℤ :=
  ratTrunc (((min c.deletions k.max_deletions_cap : ℤ) : ℚ) * k.deletions_weight)

/-- Source: `calculate_ast`: the multi-file bonus when `files_changed > 3`. -/
def calculate_ast (c : Commit) (k : ScoringCoefficients) : ℤ :=
  if 3 < c.files_changed then k.multi_file_bonus else 0

/-- Keyword list of `calculate_blk`. -/
def fixKeywords : List String := ["fix", "bug", "hotfix", "revert"]

/-- Keyword list of `calculate_tov`. -/
def wipKeywords : List String := ["wip", "tmp", "debug", "test"]

/-- Source: `calculate_blk`: the fix bonus when the lowercased message title
contains any fix keyword. -/
def calculate_blk (c : Commit) (k : ScoringCoefficients) : ℤ :=
  if fixKeywords.any (fun w => strContainsSub (strToLower c.message_title) w) then k.fix_bonus else 0

/-- Source: `calculate_tov`: the WIP penalty when the lowercased message title
contains any WIP keyword. -/
def calculate_tov (c : Commit) (k : ScoringCoefficients) : ℤ :=
  if wipKeywords.any (fun w => strContainsSub (strToLower c.message_title) w) then k.wip_penalty else 0

/-- Source: `calculate_impact_score`:
`pts*1.0 + reb*0.6 + ast*0.8 + blk*1.2 + tov*0.7`. -/
def calculate_impact_score (pts reb ast blk tov : ℤ) : ℚ :=
  (pts : ℚ) * 1 + (reb : ℚ) * (6/10) + (ast : ℚ) * (8/10) + (blk : ℚ) * (12/10) + (tov : ℚ) * (7/10)

/-- The impact score of a single commit (`calculate_all_metrics` composed). -/
def commitImpactScore (c : Commit) (k : ScoringCoefficients) : ℚ :=
  calculate_impact_score (calculate_pts c k) (calculate_reb c k) (calculate_ast c k)
    (calculate_blk c k) (calculate_tov c k)

/-- The per-commit score used by `AwardService.calculate_play_of_day`
(`backend/app/services/award.py`):
`pts*1.0 + reb*0.6 + ast*0.8 + blk*1.2 - abs(tov)*0.7`. -/
def playOfDayCommitScore (c : Commit) (k : ScoringCoefficients) : ℚ :=
  ((calculate_pts c k : ℤ) : ℚ) * 1 + ((calculate_reb c k : ℤ) : ℚ) * (6/10)
    + ((calculate_ast c k : ℤ) : ℚ) * (8/10) + ((calculate_blk c k : ℤ) : ℚ) * (12/10)
    - ((|calculate_tov c k| : ℤ) : ℚ) * (7/10)

/-! ### Commit ingestion (`backend/app/schemas/sync.py`, `backend/app/services/sync.py`) -/

/-- A raw JSON record of the sync request body; `none` models a missing field
(pydantic rejects missing required fields). -/
structure RawCommit where
  sha : Option String
  author_name : Option String
  author_email : Option String
  committer_name : Option String
  committer_email : Option String
  commit_date : Option ℤ
  message_title : Option String
  message_body : Option String
  additions : Option ℤ
  deletions : Option ℤ
  files_changed : Option ℤ
  is_merge : Option Bool
  parent_count : Option ℤ
deriving DecidableEq

/-- A validated record, pydantic model `CommitMetadata`. -/
structure CommitMetadata where
  sha : String
  author_name : String
  author_email : String
  committer_name : String
  committer_email : String
  commit_date : ℤ
  message_title : String
  message_body : Option String
  additions : ℤ
  deletions : ℤ
  files_changed : ℤ
  is_merge : Bool
  parent_count : ℤ
deriving DecidableEq

/-- Hexadecimal digit test used by `CommitMetadata.validate_sha`
(`c in "0123456789abcdef"`). -/
def isHexDigit (c : Char) : Bool :=
  ("0123456789abcdef".toList).any (fun h => h == c)

/-- Field validation of a single record, the `CommitMetadata` pydantic model:
length bounds on every field, `ge=0` bounds on the counters, the SHA
validator (exactly 40 characters, hex after lowercasing, stored lowercased)
and email lowercasing.  Missing required fields are rejected;
`is_merge` defaults to `False` and `parent_count` to `1`. -/
def validateCommitMeta (r : RawCommit) : Except String CommitMetadata :=
  match r.sha with
  | none => .error "field required: sha"
  | some sha0 =>
  if sha0.length < 40 ∨ 40 < sha0.length then .error "sha: length must be 40"
  else if ¬ ((strToLower sha0).toList.all isHexDigit) then .error "SHA must be 40 hexadecimal characters"
  else
  match r.author_name with
  | none => .error "field required: author_name"
  | some an =>
  if an.length < 1 ∨ 255 < an.length then .error "author_name: bad length"
  else
  match r.author_email with
  | none => .error "field required: author_email"
  | some ae =>
  if ae.length < 1 ∨ 255 < ae.length then .error "author_email: bad length"
  else
  match r.committer_name with
  | none => .error "field required: committer_name"
  | some cn =>
  if cn.length < 1 ∨ 255 < cn.length then .error "committer_name: bad length"
  else
  match r.committer_email with
  | none => .error "field required: committer_email"
  | some ce =>
  if ce.length < 1 ∨ 255 < ce.length then .error "committer_email: bad length"
  else
  match r.commit_date with
  | none => .error "field required: commit_date"
  | some cd =>
  match r.message_title with
  | none => .error "field required: message_title"
  | some mt =>
  if mt.length < 1 ∨ 500 < mt.length then .error "message_title: bad length"
  else
  match r.additions with
  | none => .error "field required: additions"
  | some ad =>
  if ad < 0 then .error "additions: must be nonnegative"
  else
  match r.deletions with
  | none => .error "field required: deletions"
  | some de =>
  if de < 0 then .error "deletions: must be nonnegative"
  else
  match r.files_changed with
  | none => .error "field required: files_changed"
  | some fc =>
  if fc < 0 then .error "files_changed: must be nonnegative"
  else
  let pc := r.parent_count.getD 1
  if pc < 0 then .error "parent_count: must be nonnegative"
  else
    .ok { sha := strToLower sha0
          author_name := an
          author_email := strToLower ae
          committer_name := cn
          committer_email := strToLower ce
          commit_date := cd
          message_title := mt
          message_body := r.message_body
          additions := ad
          deletions := de
          files_changed := fc
          is_merge := r.is_merge.getD false
          parent_count := pc }

/-- Validation of every record of the request; the pydantic parse of
`SyncCommitsRequest.commits` rejects the whole request when any item is
invalid. -/
def validateAll : List RawCommit → Except String (List CommitMetadata)
  | [] => .ok []
  | r :: rs =>
    match validateCommitMeta r with
    | .error e => .error e
    | .ok c =>
      match validateAll rs with
      | .error e => .error e
      | .ok cs => .ok (c :: cs)

/-- Parse of a `SyncCommitsRequest`: item validation, the 1-1000 size bounds,
and `validate_commits` rejecting duplicate SHAs inside the batch. -/
def parseSyncRequest (raws : List RawCommit) : Except String (List CommitMetadata) :=
  match validateAll raws with
  | .error e => .error e
  | .ok cs =>
    if cs.length < 1 then .error "At least one commit is required"
    else if 1000 < cs.length then .error "commits: at most 1000 items"
    else if (cs.map (fun c => c.sha)).Nodup then .ok cs
    else .error "Duplicate SHAs found in batch"

/-- Repository sync status enumeration (`RepoStatus`). -/
inductive RepoStatus
  | pending
  | syncing
  | healthy
  | error
deriving DecidableEq

/-- Mutable repository sync metadata (`Repository` columns touched by
`SyncService.ingest_commits`). -/
structure RepoState where
  id : String
  status : RepoStatus
  error_message : Option String
  last_sync_at : Option ℤ
  last_ingested_sha : Option String
deriving DecidableEq

/-- Database state seen by the ingestor: the commits table plus the target
repository row. -/
structure DbState where
  commits : List Commit
  repo : RepoState
deriving DecidableEq

/-- Per-commit result (`CommitInsertResult` schema). -/
structure CommitInsertResult where
  sha : String
  inserted : Bool
  error : Option String
deriving DecidableEq

/-- Aggregate ingestion outcome (the tuple returned by `ingest_commits`). -/
structure IngestOutcome where
  inserted : ℕ
  skipped : ℕ
  errors : ℕ
  last_ingested_sha : Option String
  details : List CommitInsertResult
deriving DecidableEq

/-- Accumulator of the per-commit loop inside `ingest_commits`. -/
structure IngestLoopState where
  rows : List Commit
  inserted : ℕ
  skipped : ℕ
  errors : ℕ
  last_sha : Option String
  details : List CommitInsertResult
deriving DecidableEq

/-- Build the `Commit` row inserted for a validated record. -/
def rowOfMeta (repo_id : String) (dateOfStamp : ℤ → Date) (c : CommitMetadata) : Commit :=
  { sha := c.sha
    repo_id := repo_id
    author_email := c.author_email
    commit_date := dateOfStamp c.commit_date
    message_title := c.message_title
    additions := c.additions
    deletions := c.deletions
    files_changed := c.files_changed
    is_merge := c.is_merge }

/-- One iteration of the loop in `ingest_commits`: the existence check on the
SHA (the session sees rows added earlier in the same batch), then either the
skip branch with its `"Commit already exists"` detail or the insert branch. -/
def ingestStep (repo_id : String) (dateOfStamp : ℤ → Date) (st : IngestLoopState)
    (c : CommitMetadata) : IngestLoopState :=
  if st.rows.any (fun r => r.sha == c.sha) then
    { st with
      skipped := st.skipped + 1
      details := st.details ++ [{ sha := c.sha, inserted := false, error := some "Commit already exists" }] }
  else
    { st with
      rows := st.rows ++ [rowOfMeta repo_id dateOfStamp c]
      inserted := st.inserted + 1
      last_sha := some c.sha
      details := st.details ++ [{ sha := c.sha, inserted := true, error := none }] }

/-- Source: `SyncService.ingest_commits`.  The repo is set to `SYNCING`, each
record is processed in order, then the repo metadata is updated:
`last_sync_at`, `last_ingested_sha` (only when something was inserted) and
the health status derived from the error count. -/
def ingest_commits (db : DbState) (cs : List CommitMetadata) (now : ℤ)
    (dateOfStamp : ℤ → Date) : IngestOutcome × DbState :=
  let fin := cs.foldl (ingestStep db.repo.id dateOfStamp)
    { rows := db.commits, inserted := 0, skipped := 0, errors := 0, last_sha := none, details := [] }
  let repo1 : RepoState :=
    { id := db.repo.id
      status := if 0 < fin.errors then RepoStatus.error else RepoStatus.healthy
      error_message := if 0 < fin.errors then some "Failed to ingest commits" else none
      last_sync_at := some now
      last_ingested_sha :=
        match fin.last_sha with
        | some s => some s
        | none => db.repo.last_ingested_sha }
  (⟨fin.inserted, fin.skipped, fin.errors, fin.last_sha, fin.details⟩,
   { commits := fin.rows, repo := repo1 })

/-- Response of the sync endpoint (`SyncCommitsResponse`). -/
structure SyncResponse where
  total : ℕ
  inserted : ℕ
  skipped : ℕ
  errors : ℕ
  last_ingested_sha : Option String
  details : List CommitInsertResult
deriving DecidableEq

/-- The sync endpoint pipeline (`POST .../commits` in `api/v1/sync.py`):
pydantic request validation first, then `ingest_commits`; a validation
failure rejects the whole request (HTTP 422) and no per-commit results are
produced. -/
def syncCommitsEndpoint (raws : List RawCommit) (db : DbState) (now : ℤ)
    (dateOfStamp : ℤ → Date) : Except String (SyncResponse × DbState) :=
  match parseSyncRequest raws with
  | .error e => .error e
  | .ok cs =>
    let r := ingest_commits db cs now dateOfStamp
    .ok (⟨cs.length, r.1.inserted, r.1.skipped, r.1.errors, r.1.last_ingested_sha, r.1.details⟩, r.2)

/-! ### Leaderboard (`backend/app/services/leaderboard.py`) -/

/-- User account status (`UserStatus` in `backend/app/models/user.py`). -/
inductive UserStatus
  | approved
  | pending
  | retired
deriving DecidableEq

/-- A user row (the columns the ranker reads). -/
structure UserRow where
  id : String
  email : String
  status : UserStatus
deriving DecidableEq

/-- A `PlayerPeriodStats` row (`backend/app/models/leaderboard.py`). -/
structure StatsRow where
  user_id : String
  season_id : String
  period_type : String
  period_start : Date
  commits : ℤ
  additions : ℤ
  deletions : ℤ
  files_changed : ℤ
  pts : ℤ
  reb : ℤ
  ast : ℤ
  blk : ℤ
  tov : ℤ
  impact_score : ℚ
deriving DecidableEq

/-- The sortable columns accepted by `get_leaderboard`. -/
inductive SortColumn
  | impact_score
  | pts
  | reb
  | ast
  | blk
  | tov
  | commits
  | additions
  | deletions
  | files_changed
deriving DecidableEq

/-- Sort direction. -/
inductive SortOrder
  | asc
  | desc
deriving DecidableEq

/-- Value of the requested sort column of a stats row (integer columns read
as rationals so a single key type covers all ten columns). -/
def colValue : SortColumn → StatsRow → ℚ
  | .impact_score, r => r.impact_score
  | .pts, r => (r.pts : ℚ)
  | .reb, r => (r.reb : ℚ)
  | .ast, r => (r.ast : ℚ)
  | .blk, r => (r.blk : ℚ)
  | .tov, r => (r.tov : ℚ)
  | .commits, r => (r.commits : ℚ)
  | .additions, r => (r.additions : ℚ)
  | .deletions, r => (r.deletions : ℚ)
  | .files_changed, r => (r.files_changed : ℚ)

/-- The `ORDER BY` of `get_leaderboard` as a lexicographic sort key:
the requested column in the requested direction (descending encoded by
negation), then always `commits` descending, then `email` ascending. -/
def sortKey (sb : SortColumn) (ord : SortOrder) (x : StatsRow × UserRow) :
    ℚ ×ₗ (ℤ ×ₗ String) :=
  let v := colValue sb x.1
  toLex (match ord with | .asc => v | .desc => -v, toLex (-x.1.commits, x.2.email))

/-- The row ordering produced by the `ORDER BY` clause. -/
def lbLe (sb : SortColumn) (ord : SortOrder) (a b : StatsRow × UserRow) : Prop :=
  sortKey sb ord a ≤ sortKey sb ord b

instance (sb : SortColumn) (ord : SortOrder) : DecidableRel (lbLe sb ord) :=
  fun a b => inferInstanceAs (Decidable (_ ≤ _))

instance (sb : SortColumn) (ord : SortOrder) : IsTotal (StatsRow × UserRow) (lbLe sb ord) :=
  ⟨fun a b => le_total (sortKey sb ord a) (sortKey sb ord b)⟩

instance (sb : SortColumn) (ord : SortOrder) : IsTrans (StatsRow × UserRow) (lbLe sb ord) :=
  ⟨fun _ _ _ hab hbc => le_trans hab hbc⟩

/-- The base query of `get_leaderboard`: stats joined with users, filtered to
the requested season, period type and period start, excluding retired
players. -/
def leaderboardRows (stats : List StatsRow) (users : List UserRow)
    (season_id : String) (ptype : String) (pstart : Date) : List (StatsRow × UserRow) :=
  (stats.flatMap (fun r => (users.filter (fun u => u.id == r.user_id)).map (fun u => (r, u)))).filter
    (fun x => x.1.season_id == season_id && x.1.period_type == ptype
      && decide (x.1.period_start = pstart) && decide (x.2.status ≠ UserStatus.retired))

/-- Source: `LeaderboardService.get_leaderboard` with an explicit
`period_start`: filter, order, count, then offset/limit pagination.
Returns the page items and the total count. -/
def get_leaderboard (stats : List StatsRow) (users : List UserRow)
    (season_id : String) (ptype : String) (pstart : Date)
    (sb : SortColumn) (ord : SortOrder) (page limit : ℕ) :
    List (StatsRow × UserRow) × ℕ :=
  let sorted := (leaderboardRows stats users season_id ptype pstart).insertionSort (lbLe sb ord)
  (((sorted.drop ((page - 1) * limit)).take limit), sorted.length)

/-- Trend indicator values. -/
inductive Trend
  | up
  | down
  | neutral
deriving DecidableEq

/-- Lookup of a `PlayerPeriodStats` row by its unique key (`.first()` of the
filtered query). -/
def findStats (stats : List StatsRow) (uid sid ptype : String) (pstart : Date) :
    Option StatsRow :=
  stats.find? (fun r => r.user_id == uid && r.season_id == sid
    && r.period_type == ptype && decide (r.period_start = pstart))

/-- First day of the month preceding the month of `d`, as computed by the
`month` branch of `calculate_trend` (`.replace(...)` on the fields). -/
def prevMonthStart (d : Date) : Date :=
  if d.month = 1 then ⟨d.year - 1, 12, 1⟩ else ⟨d.year, d.month - 1, 1⟩

/-- The previous-period computation of `calculate_trend`: one day back for
`day`, one week back for `week`, the first of the prior month for `month`,
and nothing for `season` (or an unknown period type). -/
def previousPeriodStart (ptype : String) (current_period_start : Date) : Option Date :=
  if ptype = "day" then some (current_period_start.subDays 1)
  else if ptype = "week" then some (current_period_start.subDays 7)
  else if ptype = "month" then some (prevMonthStart current_period_start)
  else none

/-- Source: `LeaderboardService.calculate_trend`: compare the current
period's impact score against the previous period's with a 5% threshold;
no result without a current row, for `season` or unknown period types,
without a previous row, or when the previous impact score is zero. -/
def calculate_trend (stats : List StatsRow) (uid sid ptype : String)
    (current_period_start : Date) : Option Trend :=
  match findStats stats uid sid ptype current_period_start with
  | none => none
  | some current =>
    match previousPeriodStart ptype current_period_start with
    | none => none
    | some pps =>
      match findStats stats uid sid ptype pps with
      | none => none
      | some previous =>
        if previous.impact_score = 0 then none
        else
          let threshold : ℚ := 5/100
          if previous.impact_score * (1 + threshold) < current.impact_score then some Trend.up
          else if current.impact_score < previous.impact_score * (1 - threshold) then some Trend.down
          else some Trend.neutral

/-! ### Award selection (`backend/app/services/award.py`, `backend/app/models/award.py`) -/

/-- Season status (`SeasonStatus` in `backend/app/models/season.py`). -/
inductive SeasonStatus
  | draft
  | active
  | closed
deriving DecidableEq

/-- A season row (columns the award selector reads; `start_at` at day
granularity). -/
structure Season where
  id : String
  project_id : String
  name : String
  status : SeasonStatus
  start_at : Date
deriving DecidableEq

/-- An absence row (`Absence` in `backend/app/models/season.py`). -/
structure AbsenceRow where
  user_id : String
  start_at : Date
  end_at : Date
deriving DecidableEq

/-- Award types: exactly the members of the `AwardType` enum declared in
`backend/app/models/award.py`.  The enum declares no `ROOKIE_OF_MONTH` or
`ROOKIE_OF_YEAR` member even though `services/award.py` references them;
in Python such an access raises `AttributeError`. -/
inductive AwardType
  | player_of_week
  | player_of_month
  | mvp
  | most_improved
deriving DecidableEq

/-- An award row (the columns of `Award` forming its unique key, plus the
winner and score). -/
structure AwardRow where
  season_id : String
  period_type : String
  period_start : Date
  award_type : AwardType
  user_id : String
  score : ℚ
deriving DecidableEq

/-- The unique key of an award: the columns of the unique index
`idx_award_unique` on `(season_id, period_type, period_start, award_type)`. -/
def awardKey (a : AwardRow) : String × String × Date × AwardType :=
  (a.season_id, a.period_type, a.period_start, a.award_type)

/-- Database state read and written by the award selector. -/
structure AwardDb where
  seasons : List Season
  users : List UserRow
  stats : List StatsRow
  absences : List AbsenceRow
  awards : List AwardRow
deriving DecidableEq

/-- Source: `AwardService._is_user_absent`: an absence row of the user whose
range contains the date. -/
def is_user_absent (db : AwardDb) (uid : String) (d : Date) : Bool :=
  db.absences.any (fun a => a.user_id == uid && decide (a.start_at ≤ d) && decide (d ≤ a.end_at))

/-- The top weekly player query of `calculate_weekly_awards`: stats joined
with users for the season, week period and week start, ordered by impact
score descending, commits descending, email ascending; `.first()`. -/
def weekTopStats (db : AwardDb) (sid : String) (ws : Date) : Option (StatsRow × UserRow) :=
  let rows := (db.stats.flatMap (fun r =>
      (db.users.filter (fun u => u.id == r.user_id)).map (fun u => (r, u)))).filter
    (fun x => x.1.season_id == sid && x.1.period_type == "week" && decide (x.1.period_start = ws))
  (rows.insertionSort (lbLe SortColumn.impact_score SortOrder.desc)).head?

/-- Processing of one active season inside `calculate_weekly_awards`:
pick the top player, skip if no stats, skip if the player is absent on the
week start, skip if the `(season, week, week_start, player_of_week)` award
already exists, otherwise create the award. -/
def weeklySeasonStep (db : AwardDb) (ws : Date) (acc : List AwardRow × ℕ) (s : Season) :
    List AwardRow × ℕ :=
  match weekTopStats db s.id ws with
  | none => acc
  | some (stRow, u) =>
    if is_user_absent db u.id ws then acc
    else if acc.1.any (fun a => decide (awardKey a = (s.id, "week", ws, AwardType.player_of_week))) then acc
    else (acc.1 ++ [{ season_id := s.id, period_type := "week", period_start := ws,
                      award_type := AwardType.player_of_week, user_id := u.id,
                      score := stRow.impact_score }], acc.2 + 1)

/-- Source: `AwardService.calculate_weekly_awards` for a given week start:
iterate over the active seasons, creating at most one Player of the Week
award per season.  Returns the number of awards created and the new state. -/
def calculate_weekly_awards (db : AwardDb) (ws : Date) : ℕ × AwardDb :=
  let act := db.seasons.filter (fun s => decide (s.status = SeasonStatus.active))
  let fin := act.foldl (weeklySeasonStep db ws) (db.awards, 0)
  (fin.2, { db with awards := fin.1 })

/-- Source: `AwardService._get_first_season_players`: users with stats in the
season and no stats in any earlier season (by start date) of the same
project. -/
def firstSeasonPlayers (db : AwardDb) (sid : String) : List String :=
  match db.seasons.find? (fun s => s.id == sid) with
  | none => []
  | some cur =>
    let current_players := ((db.stats.filter (fun r => r.season_id == sid)).map
      (fun r => r.user_id)).dedup
    current_players.filter (fun uid =>
      ¬ db.stats.any (fun r => r.user_id == uid && db.seasons.any (fun s2 =>
          r.season_id == s2.id && s2.project_id == cur.project_id
            && decide (s2.start_at < cur.start_at))))

/-- A rookie candidate's aggregate used by the rookie award selectors. -/
structure RookieScore where
  user_id : String
  avg_impact : ℚ
  total_impact : ℚ
  total_pts : ℤ
  total_commits : ℤ
  active_count : ℕ
deriving DecidableEq

/-- Python `scores.sort(key=lambda x: (x[1], x[2]), reverse=True)`:
descending lexicographic order on (average impact, total impact). -/
def scoreOrd (a b : RookieScore) : Prop :=
  toLex (b.avg_impact, b.total_impact) ≤ toLex (a.avg_impact, a.total_impact)

instance (a b : RookieScore) : Decidable (scoreOrd a b) :=
  inferInstanceAs (Decidable (_ ≤ _))

/-- The per-rookie aggregate of `calculate_rookie_of_year`: weekly stats rows
with commits > 0; `none` when fewer than 4 active weeks (the minimum
participation requirement). -/
def rookieYearScore (db : AwardDb) (sid uid : String) : Option RookieScore :=
  let weekly := db.stats.filter (fun r => r.user_id == uid && r.season_id == sid
    && r.period_type == "week" && decide (0 < r.commits))
  if weekly.length < 4 then none
  else
    let ti := (weekly.map (fun r => r.impact_score)).sum
    some { user_id := uid
           avg_impact := ti / (weekly.length : ℚ)
           total_impact := ti
           total_pts := (weekly.map (fun r => r.pts)).sum
           total_commits := (weekly.map (fun r => r.commits)).sum
           active_count := weekly.length }

/-- Source: `AwardService.calculate_rookie_of_year`.  After a winner is
determined, the source evaluates `AwardType.ROOKIE_OF_YEAR`, which is not a
member of the `AwardType` enum in `backend/app/models/award.py`; Python
raises `AttributeError` there, so no award is ever created on that path. -/
def calculate_rookie_of_year (db : AwardDb) (sid : String) :
    Except String (Option AwardRow × AwardDb) :=
  match db.seasons.find? (fun s => s.id == sid) with
  | none => .ok (none, db)
  | some _ =>
    let rookies := firstSeasonPlayers db sid
    if rookies.isEmpty then .ok (none, db)
    else
      let scores := rookies.filterMap (fun uid => rookieYearScore db sid uid)
      if scores.isEmpty then .ok (none, db)
      else
        match (scores.insertionSort scoreOrd).head? with
        | none => .ok (none, db)
        | some _ => .error "AttributeError: ROOKIE_OF_YEAR"

/-- First day of the month after the month starting at `ms`
(the `month_end` computation of `calculate_rookie_of_month`). -/
def monthEndOf (ms : Date) : Date :=
  if ms.month = 12 then ⟨ms.year + 1, 1, 1⟩ else ⟨ms.year, ms.month + 1, 1⟩

/-- The per-rookie aggregate of `calculate_rookie_of_month`: daily stats rows
of the target month with commits > 0; `none` when there is no active day. -/
def rookieMonthScore (db : AwardDb) (sid uid : String) (ms me : Date) : Option RookieScore :=
  let daily := db.stats.filter (fun r => r.user_id == uid && r.season_id == sid
    && r.period_type == "day" && decide (ms ≤ r.period_start)
    && decide (r.period_start < me) && decide (0 < r.commits))
  if daily.isEmpty then none
  else
    let ti := (daily.map (fun r => r.impact_score)).sum
    some { user_id := uid
           avg_impact := ti / (daily.length : ℚ)
           total_impact := ti
           total_pts := (daily.map (fun r => r.pts)).sum
           total_commits := (daily.map (fun r => r.commits)).sum
           active_count := daily.length }

/-- The scored rookie candidates of a season for the target month. -/
def rookieMonthScores (db : AwardDb) (sid : String) (ms : Date) : List RookieScore :=
  (firstSeasonPlayers db sid).filterMap (fun uid => rookieMonthScore db sid uid ms (monthEndOf ms))

/-- Processing of one active season inside `calculate_rookie_of_month`:
skip without rookies or scores; pick the winner (best average impact per
active day, ties by total impact); skip the season entirely when the winner
is absent at the month's mid-point `ms + 15 days` (no runner-up is
considered).  A non-absent winner reaches the
`AwardType.ROOKIE_OF_MONTH` access, which raises `AttributeError` since the
enum has no such member. -/
def rookieMonthSeasonStep (db : AwardDb) (ms : Date) (acc : List AwardRow × ℕ) (s : Season) :
    Except String (List AwardRow × ℕ) :=
  let rookies := firstSeasonPlayers db s.id
  if rookies.isEmpty then .ok acc
  else
    let scores := rookieMonthScores db s.id ms
    if scores.isEmpty then .ok acc
    else
      match (scores.insertionSort scoreOrd).head? with
      | none => .ok acc
      | some w =>
        if is_user_absent db w.user_id (ms.addDays 15) then .ok acc
        else .error "AttributeError: ROOKIE_OF_MONTH"

/-- Left fold threading the `Except` of a raised exception, modelling a loop
whose body may raise: the first exception aborts the remaining iterations. -/
def foldExcept {α β ε : Type} (f : β → α → Except ε β) : List α → β → Except ε β
  | [], b => .ok b
  | a :: as, b =>
    match f b a with
    | .error e => .error e
    | .ok b2 => foldExcept f as b2

/-- Source: `AwardService.calculate_rookie_of_month` for a given month start:
iterate over the active seasons; an uncaught exception aborts the run. -/
def calculate_rookie_of_month (db : AwardDb) (ms : Date) : Except String (ℕ × AwardDb) :=
  let act := db.seasons.filter (fun s => decide (s.status = SeasonStatus.active))
  match foldExcept (rookieMonthSeasonStep db ms) act (db.awards, 0) with
  | .error e => .error e
  | .ok fin => .ok (fin.2, { db with awards := fin.1 })

/-! ### Named helpers appearing in theorem statements -/

/-- Trend classification against the previous period's impact score, as the
specification words it: up above `previous * 1.05`, down below
`previous * 0.95`, neutral otherwise. -/
def trendOf (c p : StatsRow) : Trend :=
  if p.impact_score * (105/100) < c.impact_score then Trend.up
  else if c.impact_score < p.impact_score * (95/100) then Trend.down
  else Trend.neutral

/-- The per-record detail reported for a record skipped as a duplicate SHA. -/
def skipDetail (c : CommitMetadata) : CommitInsertResult :=
  { sha := c.sha, inserted := false, error := some "Commit already exists" }

/-! ### Concrete inputs used by witnesses and counterexamples -/

/-- A commit whose title contains the WIP keyword `"wip"` and no fix
keyword: with the default coefficients its TOV is the (negative) WIP
penalty. -/
def wipCommit : Commit :=
  { sha := "a1"
    repo_id := "r1"
    author_email := "alice@example.com"
    commit_date := ⟨2025, 3, 10⟩
    message_title := "wip cleanup"
    additions := 100
    deletions := 50
    files_changed := 2
    is_merge := false }

/-- A commit with 1500 added lines (above the default cap). -/
def bigCommit : Commit :=
  { sha := "b2"
    repo_id := "r1"
    author_email := "alice@example.com"
    commit_date := ⟨2025, 3, 11⟩
    message_title := "add feature"
    additions := 1500
    deletions := 0
    files_changed := 1
    is_merge := false }

/-- A 40-character lowercase hex SHA. -/
def shaA : String := String.mk (List.replicate 40 'a')

/-- Another 40-character lowercase hex SHA. -/
def shaB : String := String.mk (List.replicate 40 'b')

/-- A fully valid raw sync record. -/
def goodRaw : RawCommit :=
  { sha := some shaA
    author_name := some "Alice"
    author_email := some "alice@example.com"
    committer_name := some "Alice"
    committer_email := some "alice@example.com"
    commit_date := some 100
    message_title := some "add feature"
    message_body := none
    additions := some 10
    deletions := some 2
    files_changed := some 1
    is_merge := some false
    parent_count := some 1 }

/-- A raw sync record whose SHA has 39 characters: rejected by the pydantic
length constraint on `CommitMetadata.sha`. -/
def badShaRaw : RawCommit :=
  { goodRaw with sha := some (String.mk (List.replicate 39 'a')) }

/-- An empty repository database with a pending repo row. -/
def emptyDb : DbState :=
  { commits := []
    repo := { id := "r1", status := RepoStatus.pending, error_message := none,
              last_sync_at := none, last_ingested_sha := none } }

/-- A fixed timestamp-to-date conversion for concrete runs. -/
def constDate : ℤ → Date := fun _ => ⟨2025, 1, 1⟩

/-- A validated commit record with SHA `shaA`. -/
def metaA : CommitMetadata :=
  { sha := shaA
    author_name := "Alice"
    author_email := "alice@example.com"
    committer_name := "Alice"
    committer_email := "alice@example.com"
    commit_date := 100
    message_title := "add feature"
    message_body := none
    additions := 10
    deletions := 2
    files_changed := 1
    is_merge := false
    parent_count := 1 }

/-- A validated commit record with SHA `shaB`. -/
def metaB : CommitMetadata :=
  { metaA with sha := shaB, author_email := "bob@example.com", message_title := "fix crash" }

/-- A Monday used as a concrete week start. -/
def wsMonday : Date := ⟨2025, 1, 6⟩

/-- An active season of project `p1`. -/
def season1 : Season :=
  { id := "s1", project_id := "p1", name := "Season One",
    status := SeasonStatus.active, start_at := ⟨2025, 1, 1⟩ }

/-- A Player of the Week award already decided for `season1` and
`wsMonday`. -/
def award1 : AwardRow :=
  { season_id := "s1", period_type := "week", period_start := wsMonday,
    award_type := AwardType.player_of_week, user_id := "u1", score := 50 }

/-- An award database in which `season1`'s week award for `wsMonday` already
exists. -/
def dbWeekDecided : AwardDb :=
  { seasons := [season1]
    users := [{ id := "u1", email := "alice@example.com", status := UserStatus.approved }]
    stats := []
    absences := []
    awards := [award1] }

/-- A weekly stats row of user `u1` in `season1`. -/
def statsRowU1 : StatsRow :=
  { user_id := "u1", season_id := "s1", period_type := "week", period_start := wsMonday,
    commits := 5, additions := 100, deletions := 20, files_changed := 7,
    pts := 110, reb := 12, ast := 5, blk := 0, tov := 0, impact_score := 121 }

/-- The user list for the leaderboard witness. -/
def usersLb : List UserRow :=
  [{ id := "u1", email := "alice@example.com", status := UserStatus.approved }]

/-- Current-day stats row of `u1` (trend witness). -/
def dayCur : StatsRow :=
  { statsRowU1 with period_type := "day", period_start := ⟨2025, 3, 10⟩, impact_score := 121 }

/-- Previous-day stats row of `u1` (trend witness): 121 > 100 * 1.05. -/
def dayPrev : StatsRow :=
  { statsRowU1 with period_type := "day", period_start := ⟨2025, 3, 9⟩, impact_score := 100 }

/-- Stats list for the trend witness. -/
def statsTrend : List StatsRow := [dayCur, dayPrev]

/-- A weekly stats row of rookie `u1` with activity, for week `n` of 2025. -/
def rookieWeekRow (n : ℕ) : StatsRow :=
  { user_id := "u1", season_id := "s1", period_type := "week",
    period_start := (⟨2025, 1, 6⟩ : Date).addDays (7 * n),
    commits := 2, additions := 10, deletions := 0, files_changed := 1,
    pts := 12, reb := 0, ast := 0, blk := 0, tov := 0, impact_score := 12 }

/-- An award database whose only season has one rookie with four active
weeks: `calculate_rookie_of_year` reaches the missing enum member here. -/
def dbRookieYear : AwardDb :=
  { seasons := [season1]
    users := [{ id := "u1", email := "alice@example.com", status := UserStatus.approved }]
    stats := [rookieWeekRow 0, rookieWeekRow 1, rookieWeekRow 2, rookieWeekRow 3]
    absences := []
    awards := [] }

/-- The same database with only three active weeks: the rookie is filtered
out by the minimum-participation requirement. -/
def dbRookieYear3 : AwardDb :=
  { dbRookieYear with stats := [rookieWeekRow 0, rookieWeekRow 1, rookieWeekRow 2] }

/-- A repository database that already stores the commit of `metaA`. -/
def preExistDb : DbState :=
  { commits := [rowOfMeta "r1" constDate metaA], repo := emptyDb.repo }

/-- March 2025 as a target month start. -/
def msMarch : Date := ⟨2025, 3, 1⟩

/-- A daily stats row of rookie `u1` inside March 2025. -/
def rookieDayRow : StatsRow :=
  { user_id := "u1", season_id := "s1", period_type := "day", period_start := ⟨2025, 3, 10⟩,
    commits := 1, additions := 10, deletions := 0, files_changed := 1,
    pts := 20, reb := 0, ast := 0, blk := 0, tov := 0, impact_score := 20 }

/-- An award database whose only rookie candidate is absent at the
mid-point of March 2025 (March 16). -/
def dbRookieMonthAbsent : AwardDb :=
  { seasons := [season1]
    users := [{ id := "u1", email := "alice@example.com", status := UserStatus.approved }]
    stats := [rookieDayRow]
    absences := [{ user_id := "u1", start_at := ⟨2025, 3, 14⟩, end_at := ⟨2025, 3, 20⟩ }]
    awards := [] }

/-! ### Helper lemmas -/

/-- `ratTrunc` written with the `⌊⌋` of the `FloorRing` instance. -/
theorem ratTrunc_eq_floor (q : ℚ) : ratTrunc q = if q < 0 then -⌊-q⌋ else ⌊q⌋ := rfl

/-- Truncation of an integer is the integer itself. -/
theorem ratTrunc_intCast (n : ℤ) : ratTrunc ((n : ℤ) : ℚ) = n := by
  rw [ratTrunc_eq_floor]
  split
  · rw [← Int.cast_neg, Int.floor_intCast, neg_neg]
  · exact Int.floor_intCast n

/-- The Play of the Day score minus the impact score is determined by the
TOV metric alone: the other four terms coincide. -/
theorem play_sub_impact (c : Commit) (k : ScoringCoefficients) :
    playOfDayCommitScore c k - commitImpactScore c k
      = -(((|calculate_tov c k| + calculate_tov c k : ℤ) : ℚ)) * (7/10) := by
  unfold playOfDayCommitScore commitImpactScore calculate_impact_score
  push_cast
  ring

/-- With a nonpositive TOV the two formulas agree, since `-|t| = t`. -/
theorem play_eq_impact_of_tov_nonpos (c : Commit) (k : ScoringCoefficients)
    (h : calculate_tov c k ≤ 0) :
    playOfDayCommitScore c k = commitImpactScore c k := by
  have hd := play_sub_impact c k
  rw [abs_of_nonpos h] at hd
  simp only [neg_add_cancel, Int.cast_zero, neg_zero, zero_mul] at hd
  linarith [hd]

/-! ### Claim theorems -/

/-- C1: the Play of the Day score and the impact score of a commit coincide
whenever its TOV is nonpositive (in particular for every schema-valid
configuration, where `wip_penalty ≤ 0`), and differ exactly when TOV is
positive.  The claim as frozen ("they differ whenever TOV ≠ 0") fails: for
a negative TOV, `-|TOV| = TOV`, so subtracting `|TOV|*0.7` equals adding
the signed `TOV*0.7`. -/
theorem C1_play_vs_impact (c : Commit) (k : ScoringCoefficients) :
    (calculate_tov c k ≤ 0 →
      playOfDayCommitScore c k = commitImpactScore c k) ∧
    (0 < calculate_tov c k →
      playOfDayCommitScore c k ≠ commitImpactScore c k) := by
  constructor
  · exact play_eq_impact_of_tov_nonpos c k
  · intro hpos heq
    have hd := play_sub_impact c k
    rw [heq, sub_self, abs_of_pos hpos] at hd
    have ht : (0 : ℚ) < ((calculate_tov c k : ℤ) : ℚ) := by exact_mod_cast hpos
    have : (0 : ℚ) = -(((calculate_tov c k + calculate_tov c k : ℤ) : ℚ)) * (7/10) := hd
    push_cast at this
    nlinarith [this, ht]

/-- C1 counterexample: a commit whose title contains `"wip"` under the
default coefficients has `TOV = -10 ≠ 0`, yet its Play of the Day score
equals its impact score, refuting the claim as frozen. -/
theorem C1_counterexample :
    calculate_tov wipCommit defaultCoefficients ≠ 0 ∧
    playOfDayCommitScore wipCommit defaultCoefficients
      = commitImpactScore wipCommit defaultCoefficients :=
  ⟨by decide, play_eq_impact_of_tov_nonpos wipCommit defaultCoefficients (by decide)⟩

/-- C1 witness: the nonpositive-TOV branch applied at the concrete WIP
commit. -/
theorem C1_witness :
    playOfDayCommitScore wipCommit defaultCoefficients
      = commitImpactScore wipCommit defaultCoefficients :=
  (C1_play_vs_impact wipCommit defaultCoefficients).1 (by decide)

/-- C5: PTS is the truncation of `commit_base + min(additions, cap) *
additions_weight`; when additions do not exceed the cap the `min`
disappears; and at `additions = 1500, cap = 1000, weight = 1, base = 10`
the result is `1010`. -/
theorem C5_pts (c : Commit) (k : ScoringCoefficients) :
    calculate_pts c k
      = ratTrunc ((k.commit_base : ℚ) + ((min c.additions k.max_additions_cap : ℤ) : ℚ) * k.additions_weight)
    ∧ (c.additions ≤ k.max_additions_cap →
        calculate_pts c k = ratTrunc ((k.commit_base : ℚ) + (c.additions : ℚ) * k.additions_weight))
    ∧ (c.additions = 1500 → k.max_additions_cap = 1000 → k.additions_weight = 1 →
        k.commit_base = 10 → calculate_pts c k = 1010) := by
  refine ⟨rfl, ?_, ?_⟩
  · intro h
    unfold calculate_pts
    rw [min_eq_left h]
  · intro ha hcap hw hb
    unfold calculate_pts
    rw [ha, hcap, hw, hb]
    have hmin : min (1500 : ℤ) 1000 = 1000 := by decide
    rw [hmin]
    have : ((10 : ℤ) : ℚ) + ((1000 : ℤ) : ℚ) * 1 = ((1010 : ℤ) : ℚ) := by norm_num
    rw [this, ratTrunc_intCast]

/-- C5 witness: the capped branch evaluated at the concrete 1500-addition
commit with the default coefficients. -/
theorem C5_witness : calculate_pts bigCommit defaultCoefficients = 1010 :=
  (C5_pts bigCommit defaultCoefficients).2.2 rfl rfl rfl rfl

/-! ### Ingestion lemmas -/

/-- Item validation failure of any record fails `validateAll`. -/
theorem validateAll_not_ok {raws : List RawCommit} {r : RawCommit}
    (hr : r ∈ raws) (hbad : (validateCommitMeta r).isOk = false) :
    (validateAll raws).isOk = false := by
  induction raws with
  | nil => cases hr
  | cons a as ih =>
    rcases List.mem_cons.1 hr with h | h
    · subst h
      unfold validateAll
      cases hva : validateCommitMeta r with
      | error e => rfl
      | ok c => rw [hva] at hbad; cases hbad
    · unfold validateAll
      cases hva : validateCommitMeta a with
      | error e => rfl
      | ok c =>
        cases hvr : validateAll as with
        | error e => rfl
        | ok cs =>
          have hko := ih h
          rw [hvr] at hko
          cases hko

/-- The loop of `ingest_commits` only appends to the rows. -/
theorem ingest_foldl_rows_pre (rid : String) (f : ℤ → Date) :
    ∀ (cs : List CommitMetadata) (st : IngestLoopState),
      st.rows <+: (cs.foldl (ingestStep rid f) st).rows := by
  intro cs
  induction cs with
  | nil => intro st; exact List.prefix_rfl
  | cons c cs ih =>
    intro st
    rw [List.foldl_cons]
    refine List.IsPrefix.trans ?_ (ih (ingestStep rid f st c))
    unfold ingestStep
    split
    · exact List.prefix_rfl
    · exact List.prefix_append _ _

/-- The loop of `ingest_commits` only appends to the details. -/
theorem ingest_foldl_details_pre (rid : String) (f : ℤ → Date) :
    ∀ (cs : List CommitMetadata) (st : IngestLoopState),
      st.details <+: (cs.foldl (ingestStep rid f) st).details := by
  intro cs
  induction cs with
  | nil => intro st; exact List.prefix_rfl
  | cons c cs ih =>
    intro st
    rw [List.foldl_cons]
    refine List.IsPrefix.trans ?_ (ih (ingestStep rid f st c))
    unfold ingestStep
    split
    · exact List.prefix_append _ _
    · exact List.prefix_append _ _

/-- After the loop, every processed SHA is present among the rows. -/
theorem ingest_foldl_sha_mem (rid : String) (f : ℤ → Date) :
    ∀ (cs : List CommitMetadata) (st : IngestLoopState) (c : CommitMetadata), c ∈ cs →
      c.sha ∈ (cs.foldl (ingestStep rid f) st).rows.map Commit.sha := by
  intro cs
  induction cs with
  | nil => intro st c hc; cases hc
  | cons a as ih =>
    intro st c hc
    rcases List.mem_cons.1 hc with h | h
    · subst h
      rw [List.foldl_cons]
      have hmem : c.sha ∈ (ingestStep rid f st c).rows.map Commit.sha := by
        unfold ingestStep
        split
        · next hany =>
          rcases List.any_eq_true.1 hany with ⟨r, hr, hrs⟩
          exact List.mem_map.2 ⟨r, hr, (eq_of_beq hrs).symm ▸ rfl⟩
        · refine List.mem_map.2 ⟨rowOfMeta rid f c, ?_, rfl⟩
          exact List.mem_append.2 (Or.inr (List.mem_singleton.2 rfl))
      rcases List.mem_map.1 hmem with ⟨r, hr, hrs⟩
      have hpre := ingest_foldl_rows_pre rid f as (ingestStep rid f st c)
      exact List.mem_map.2 ⟨r, hpre.subset hr, hrs⟩
    · rw [List.foldl_cons]; exact ih _ c h

/-- The loop never touches the error counter. -/
theorem ingest_foldl_errors (rid : String) (f : ℤ → Date) :
    ∀ (cs : List CommitMetadata) (st : IngestLoopState),
      (cs.foldl (ingestStep rid f) st).errors = st.errors := by
  intro cs
  induction cs with
  | nil => intro st; rfl
  | cons c cs ih =>
    intro st
    rw [List.foldl_cons, ih]
    unfold ingestStep
    split <;> rfl

/-- The loop emits exactly one detail entry per processed record. -/
theorem ingest_foldl_details_length (rid : String) (f : ℤ → Date) :
    ∀ (cs : List CommitMetadata) (st : IngestLoopState),
      (cs.foldl (ingestStep rid f) st).details.length = st.details.length + cs.length := by
  intro cs
  induction cs with
  | nil => intro st; rfl
  | cons c cs ih =>
    intro st
    rw [List.foldl_cons, ih]
    unfold ingestStep
    split <;> simp <;> omega

/-- When every record's SHA is already stored, the loop is pure skipping:
rows, inserted count, last inserted SHA and error count are unchanged,
the skip counter grows by the batch size, and each record is reported with
the duplicate-SHA detail. -/
theorem ingest_foldl_all_skip (rid : String) (f : ℤ → Date) :
    ∀ (cs : List CommitMetadata) (st : IngestLoopState),
      (∀ c ∈ cs, c.sha ∈ st.rows.map Commit.sha) →
      cs.foldl (ingestStep rid f) st =
        { st with skipped := st.skipped + cs.length,
                  details := st.details ++ cs.map skipDetail } := by
  intro cs
  induction cs with
  | nil => intro st _; simp
  | cons c cs ih =>
    intro st hall
    have hc : c.sha ∈ st.rows.map Commit.sha := hall c (List.mem_cons_self c cs)
    have hany : st.rows.any (fun r => r.sha == c.sha) = true := by
      rcases List.mem_map.1 hc with ⟨r, hr, hsha⟩
      refine List.any_eq_true.2 ⟨r, hr, ?_⟩
      rw [hsha]
      exact beq_self_eq_true _
    rw [List.foldl_cons]
    have hstep : ingestStep rid f st c =
        { st with skipped := st.skipped + 1, details := st.details ++ [skipDetail c] } := by
      unfold ingestStep
      rw [if_pos hany]
      rfl
    rw [hstep]
    rw [ih { st with skipped := st.skipped + 1, details := st.details ++ [skipDetail c] }
      (fun d hd => hall d (List.mem_cons_of_mem c hd))]
    simp [List.append_assoc]
    omega

/-- A run of `ingest_commits` on a state already containing every SHA of the
batch: nothing is inserted, everything is skipped and reported as a
duplicate, and the data state is untouched apart from the sync metadata. -/
theorem ingest_commits_all_dup (db : DbState) (cs : List CommitMetadata) (t : ℤ)
    (f : ℤ → Date) (hall : ∀ c ∈ cs, c.sha ∈ db.commits.map Commit.sha) :
    ingest_commits db cs t f =
      ({ inserted := 0, skipped := cs.length, errors := 0, last_ingested_sha := none,
         details := cs.map skipDetail },
       { commits := db.commits,
         repo := { id := db.repo.id, status := RepoStatus.healthy, error_message := none,
                   last_sync_at := some t,
                   last_ingested_sha := db.repo.last_ingested_sha } }) := by
  unfold ingest_commits
  rw [ingest_foldl_all_skip db.repo.id f cs
    { rows := db.commits, inserted := 0, skipped := 0, errors := 0, last_sha := none, details := [] }
    hall]
  simp

/-- The SHAs of an ingested batch are all present in the resulting state. -/
theorem ingest_commits_sha_mem (db : DbState) (cs : List CommitMetadata) (t : ℤ)
    (f : ℤ → Date) (c : CommitMetadata) (hc : c ∈ cs) :
    c.sha ∈ (ingest_commits db cs t f).2.commits.map Commit.sha := by
  unfold ingest_commits
  exact ingest_foldl_sha_mem db.repo.id f cs _ c hc

/-- The details list of an ingestion outcome has one entry per record. -/
theorem ingest_commits_details_length (db : DbState) (cs : List CommitMetadata) (t : ℤ)
    (f : ℤ → Date) : (ingest_commits db cs t f).1.details.length = cs.length := by
  show (cs.foldl (ingestStep db.repo.id f)
    { rows := db.commits, inserted := 0, skipped := 0, errors := 0,
      last_sha := none, details := [] }).details.length = cs.length
  rw [ingest_foldl_details_length]
  simp

/-- An ingestion run reports zero errors (the embedded loop has no failing
insert). -/
theorem ingest_commits_errors_zero (db : DbState) (cs : List CommitMetadata) (t : ℤ)
    (f : ℤ → Date) : (ingest_commits db cs t f).1.errors = 0 := by
  show (cs.foldl (ingestStep db.repo.id f)
    { rows := db.commits, inserted := 0, skipped := 0, errors := 0,
      last_sha := none, details := [] }).errors = 0
  rw [ingest_foldl_errors]

/-- After an ingestion run the repository status is healthy. -/
theorem ingest_commits_repo_status (db : DbState) (cs : List CommitMetadata) (t : ℤ)
    (f : ℤ → Date) : (ingest_commits db cs t f).2.repo.status = RepoStatus.healthy := by
  show (if 0 < (cs.foldl (ingestStep db.repo.id f)
      { rows := db.commits, inserted := 0, skipped := 0, errors := 0,
        last_sha := none, details := [] }).errors
    then RepoStatus.error else RepoStatus.healthy) = RepoStatus.healthy
  rw [ingest_foldl_errors]
  rfl

/-- After an ingestion run the repository error message is cleared. -/
theorem ingest_commits_repo_errmsg (db : DbState) (cs : List CommitMetadata) (t : ℤ)
    (f : ℤ → Date) : (ingest_commits db cs t f).2.repo.error_message = none := by
  show (if 0 < (cs.foldl (ingestStep db.repo.id f)
      { rows := db.commits, inserted := 0, skipped := 0, errors := 0,
        last_sha := none, details := [] }).errors
    then some "Failed to ingest commits" else none) = none
  rw [ingest_foldl_errors]
  rfl

/-- C2: request validation is batch-fatal.  A record failing `CommitMetadata`
validation (bad SHA or missing field) makes the whole request fail, as does
a duplicate SHA inside the batch; only a request in which every record
validates (and the size bounds and SHA-uniqueness hold) reaches ingestion,
which then reports one per-commit result per record.  The claim as frozen
says a bad record is reported per-record without failing the batch; that is
refuted by `C2_counterexample`. -/
theorem C2_batch_validation (raws : List RawCommit) (db : DbState) (now : ℤ) (f : ℤ → Date) :
    ((∃ r ∈ raws, (validateCommitMeta r).isOk = false) →
      (syncCommitsEndpoint raws db now f).isOk = false)
    ∧ (∀ cs, validateAll raws = .ok cs → ¬ (cs.map (fun c => c.sha)).Nodup →
        (syncCommitsEndpoint raws db now f).isOk = false)
    ∧ (∀ cs, parseSyncRequest raws = .ok cs →
        ∃ resp db2, syncCommitsEndpoint raws db now f = .ok (resp, db2)
          ∧ resp.total = cs.length ∧ resp.details.length = cs.length) := by
  refine ⟨?_, ?_, ?_⟩
  · rintro ⟨r, hr, hbad⟩
    have hva := validateAll_not_ok hr hbad
    unfold syncCommitsEndpoint parseSyncRequest
    cases hv : validateAll raws with
    | error e => rfl
    | ok cs => rw [hv] at hva; cases hva
  · intro cs hok hdup
    have hp : parseSyncRequest raws =
        (if cs.length < 1 then Except.error "At least one commit is required"
         else if 1000 < cs.length then Except.error "commits: at most 1000 items"
         else if (cs.map (fun c => c.sha)).Nodup then Except.ok cs
         else Except.error "Duplicate SHAs found in batch") := by
      unfold parseSyncRequest
      rw [hok]
    unfold syncCommitsEndpoint
    rw [hp]
    by_cases h1 : cs.length < 1
    · rw [if_pos h1]; rfl
    · rw [if_neg h1]
      by_cases h2 : 1000 < cs.length
      · rw [if_pos h2]; rfl
      · rw [if_neg h2, if_neg hdup]; rfl
  · intro cs hok
    unfold syncCommitsEndpoint
    rw [hok]
    exact ⟨_, _, rfl, rfl, ingest_commits_details_length db cs now f⟩

/-- C2 counterexample: a two-record batch with distinct SHAs in which one
record has a 39-character SHA.  The record is invalid, the other record is
valid, yet the endpoint rejects the whole batch instead of reporting the
bad record in a per-commit result list. -/
theorem C2_counterexample :
    (validateCommitMeta goodRaw).isOk = true
    ∧ (validateCommitMeta badShaRaw).isOk = false
    ∧ (syncCommitsEndpoint [goodRaw, badShaRaw] emptyDb 0 constDate).isOk = false := by
  refine ⟨by decide, by decide, by decide⟩

/-- C2 witness: the batch-fatality branch applied to a concrete one-record
batch with a bad SHA. -/
theorem C2_witness :
    (syncCommitsEndpoint [badShaRaw] emptyDb 0 constDate).isOk = false :=
  (C2_batch_validation [badShaRaw] emptyDb 0 constDate).1 ⟨badShaRaw, by decide, by decide⟩

/-- C3: ingestion is idempotent.  Replaying a batch on the state produced by
a first run changes no commit row, inserts nothing, reports every record as
skipped with the duplicate-SHA detail, and (when run at the same sync
timestamp) reproduces exactly the same end state. -/
theorem C3_idempotent (db : DbState) (cs : List CommitMetadata) (t1 t2 : ℤ) (f : ℤ → Date) :
    (ingest_commits (ingest_commits db cs t1 f).2 cs t2 f).2.commits
        = (ingest_commits db cs t1 f).2.commits
    ∧ (ingest_commits (ingest_commits db cs t1 f).2 cs t2 f).1.inserted = 0
    ∧ (ingest_commits (ingest_commits db cs t1 f).2 cs t2 f).1.skipped = cs.length
    ∧ (ingest_commits (ingest_commits db cs t1 f).2 cs t2 f).1.details = cs.map skipDetail
    ∧ (t2 = t1 →
        (ingest_commits (ingest_commits db cs t1 f).2 cs t2 f).2
          = (ingest_commits db cs t1 f).2) := by
  have hall : ∀ c ∈ cs, c.sha ∈ (ingest_commits db cs t1 f).2.commits.map Commit.sha :=
    fun c hc => ingest_commits_sha_mem db cs t1 f c hc
  have h2 := ingest_commits_all_dup (ingest_commits db cs t1 f).2 cs t2 f hall
  refine ⟨by rw [h2], by rw [h2], by rw [h2], by rw [h2], ?_⟩
  intro ht
  subst ht
  rw [h2]
  show DbState.mk (ingest_commits db cs t2 f).2.commits
      (RepoState.mk (ingest_commits db cs t2 f).2.repo.id RepoStatus.healthy none (some t2)
        (ingest_commits db cs t2 f).2.repo.last_ingested_sha)
    = DbState.mk (ingest_commits db cs t2 f).2.commits (ingest_commits db cs t2 f).2.repo
  rw [DbState.mk.injEq]
  refine ⟨rfl, ?_⟩
  show RepoState.mk (ingest_commits db cs t2 f).2.repo.id RepoStatus.healthy none (some t2)
      (ingest_commits db cs t2 f).2.repo.last_ingested_sha
    = RepoState.mk (ingest_commits db cs t2 f).2.repo.id (ingest_commits db cs t2 f).2.repo.status
      (ingest_commits db cs t2 f).2.repo.error_message (ingest_commits db cs t2 f).2.repo.last_sync_at
      (ingest_commits db cs t2 f).2.repo.last_ingested_sha
  rw [RepoState.mk.injEq]
  exact ⟨rfl, (ingest_commits_repo_status db cs t2 f).symm,
    (ingest_commits_repo_errmsg db cs t2 f).symm, rfl, rfl⟩

/-- C3 witness: a two-record batch replayed over an initially empty state at
the same timestamp reproduces the same state. -/
theorem C3_witness :
    (ingest_commits (ingest_commits emptyDb [metaA, metaB] 0 constDate).2 [metaA, metaB] 0 constDate).2
      = (ingest_commits emptyDb [metaA, metaB] 0 constDate).2 :=
  (C3_idempotent emptyDb [metaA, metaB] 0 0 constDate).2.2.2.2 rfl

/-- One loop step only appends to the rows. -/
theorem ingestStep_rows_pre (rid : String) (f : ℤ → Date) (st : IngestLoopState)
    (c : CommitMetadata) : st.rows <+: (ingestStep rid f st c).rows := by
  unfold ingestStep
  split
  · exact List.prefix_rfl
  · exact List.prefix_append _ _

/-- A record whose SHA is already present when the loop reaches it produces
the duplicate-SHA detail entry. -/
theorem ingest_foldl_skip_detail (rid : String) (f : ℤ → Date) :
    ∀ (cs : List CommitMetadata) (st : IngestLoopState) (c : CommitMetadata),
      c ∈ cs → c.sha ∈ st.rows.map Commit.sha →
      skipDetail c ∈ (cs.foldl (ingestStep rid f) st).details := by
  intro cs
  induction cs with
  | nil => intro st c hc _; cases hc
  | cons a as ih =>
    intro st c hc hsha
    rcases List.mem_cons.1 hc with h | h
    · subst h
      have hany : st.rows.any (fun r => r.sha == c.sha) = true := by
        rcases List.mem_map.1 hsha with ⟨r, hr, hrs⟩
        refine List.any_eq_true.2 ⟨r, hr, ?_⟩
        rw [hrs]
        exact beq_self_eq_true _
      have hstep : ingestStep rid f st c =
          { st with skipped := st.skipped + 1, details := st.details ++ [skipDetail c] } := by
        unfold ingestStep
        rw [if_pos hany]
        rfl
      rw [List.foldl_cons, hstep]
      refine (ingest_foldl_details_pre rid f as _).subset ?_
      exact List.mem_append.2 (Or.inr (List.mem_singleton.2 rfl))
    · rw [List.foldl_cons]
      refine ih (ingestStep rid f st a) c h ?_
      rcases List.mem_map.1 hsha with ⟨r, hr, hrs⟩
      exact List.mem_map.2 ⟨r, (ingestStep_rows_pre rid f st a).subset hr, hrs⟩

/-- The loop maintains the accounting identity: the skip counter equals the
number of detail entries bearing the duplicate-SHA error message. -/
theorem ingest_foldl_skip_count (rid : String) (f : ℤ → Date) :
    ∀ (cs : List CommitMetadata) (st : IngestLoopState),
      st.skipped = (st.details.filter
        (fun d => decide (d.error = some "Commit already exists"))).length →
      (cs.foldl (ingestStep rid f) st).skipped
        = ((cs.foldl (ingestStep rid f) st).details.filter
            (fun d => decide (d.error = some "Commit already exists"))).length := by
  intro cs
  induction cs with
  | nil => intro st h; exact h
  | cons c cs ih =>
    intro st hinv
    rw [List.foldl_cons]
    refine ih (ingestStep rid f st c) ?_
    unfold ingestStep
    split
    · simp [skipDetail, List.filter_append, hinv]
    · simp [List.filter_append, hinv]

/-- C10: a record skipped because its SHA is already stored is reported in
the per-record details with `inserted = false` and the non-null error
message `"Commit already exists"`, while being counted in the skipped total
and not in the errors total (which stays zero): a details entry with
`inserted = false` reveals skip versus error only through its message. -/
theorem C10_duplicate_reporting (db : DbState) (cs : List CommitMetadata) (t : ℤ)
    (f : ℤ → Date) (c : CommitMetadata) (hc : c ∈ cs)
    (hex : c.sha ∈ db.commits.map Commit.sha) :
    skipDetail c ∈ (ingest_commits db cs t f).1.details
    ∧ (skipDetail c).inserted = false
    ∧ (skipDetail c).error = some "Commit already exists"
    ∧ (ingest_commits db cs t f).1.errors = 0
    ∧ (ingest_commits db cs t f).1.skipped
        = ((ingest_commits db cs t f).1.details.filter
            (fun d => decide (d.error = some "Commit already exists"))).length := by
  refine ⟨?_, rfl, rfl, ingest_commits_errors_zero db cs t f, ?_⟩
  · show skipDetail c ∈ (cs.foldl (ingestStep db.repo.id f)
      { rows := db.commits, inserted := 0, skipped := 0, errors := 0,
        last_sha := none, details := [] }).details
    exact ingest_foldl_skip_detail db.repo.id f cs _ c hc hex
  · show (cs.foldl (ingestStep db.repo.id f)
        { rows := db.commits, inserted := 0, skipped := 0, errors := 0,
          last_sha := none, details := [] }).skipped
      = ((cs.foldl (ingestStep db.repo.id f)
          { rows := db.commits, inserted := 0, skipped := 0, errors := 0,
            last_sha := none, details := [] }).details.filter
          (fun d => decide (d.error = some "Commit already exists"))).length
    exact ingest_foldl_skip_count db.repo.id f cs _ rfl

/-- C10 witness: re-sending the already-stored `metaA` yields its
duplicate-SHA detail entry. -/
theorem C10_witness :
    skipDetail metaA ∈ (ingest_commits preExistDb [metaA] 0 constDate).1.details :=
  (C10_duplicate_reporting preExistDb [metaA] 0 constDate metaA (by decide) (by decide)).1

/-- A season whose weekly award key already exists in the accumulator leaves the
accumulator untouched (create-once). -/
theorem weeklySeasonStep_key_exists (db : AwardDb) (ws : Date) (acc : List AwardRow × ℕ)
    (s : Season)
    (h : ∃ a ∈ acc.1, awardKey a = (s.id, "week", ws, AwardType.player_of_week)) :
    weeklySeasonStep db ws acc s = acc := by
  rcases h with ⟨a, ha, hk⟩
  have hany : acc.1.any
      (fun a => decide (awardKey a = (s.id, "week", ws, AwardType.player_of_week))) = true :=
    List.any_eq_true.2 ⟨a, ha, decide_eq_true hk⟩
  rcases hts : weekTopStats db s.id ws with _ | ⟨stRow, u⟩
  · simp only [weeklySeasonStep, hts]
  · simp only [weeklySeasonStep, hts]
    by_cases habs : is_user_absent db u.id ws = true
    · rw [if_pos habs]
    · rw [if_neg habs, if_pos hany]

/-- One weekly step only appends to the award list. -/
theorem weeklySeasonStep_pre (db : AwardDb) (ws : Date) (acc : List AwardRow × ℕ)
    (s : Season) : acc.1 <+: (weeklySeasonStep db ws acc s).1 := by
  rcases hts : weekTopStats db s.id ws with _ | ⟨stRow, u⟩
  · simp only [weeklySeasonStep, hts]
    exact List.prefix_rfl
  · simp only [weeklySeasonStep, hts]
    by_cases habs : is_user_absent db u.id ws = true
    · rw [if_pos habs]
    · rw [if_neg habs]
      by_cases hany : (acc.1.any
          (fun a => decide (awardKey a = (s.id, "week", ws, AwardType.player_of_week)))) = true
      · rw [if_pos hany]
      · rw [if_neg hany]
        exact List.prefix_append _ _

/-- One weekly step preserves uniqueness of award keys: it inserts only
behind the existence check. -/
theorem weeklySeasonStep_nodup (db : AwardDb) (ws : Date) (acc : List AwardRow × ℕ)
    (s : Season) (h : (acc.1.map awardKey).Nodup) :
    ((weeklySeasonStep db ws acc s).1.map awardKey).Nodup := by
  rcases hts : weekTopStats db s.id ws with _ | ⟨stRow, u⟩
  · simp only [weeklySeasonStep, hts]
    exact h
  · simp only [weeklySeasonStep, hts]
    by_cases habs : is_user_absent db u.id ws = true
    · rw [if_pos habs]
      exact h
    · rw [if_neg habs]
      by_cases hany : (acc.1.any
          (fun a => decide (awardKey a = (s.id, "week", ws, AwardType.player_of_week)))) = true
      · rw [if_pos hany]
        exact h
      · rw [if_neg hany]
        have hnot : (s.id, "week", ws, AwardType.player_of_week) ∉ acc.1.map awardKey := by
          intro hmem
          rcases List.mem_map.1 hmem with ⟨b, hb, hkb⟩
          exact hany (List.any_eq_true.2 ⟨b, hb, decide_eq_true hkb⟩)
        show ((acc.1 ++
            [({ season_id := s.id
                period_type := "week"
                period_start := ws
                award_type := AwardType.player_of_week
                user_id := u.id
                score := stRow.impact_score } : AwardRow)]).map awardKey).Nodup
        rw [List.map_append]
        refine List.Nodup.append h (List.nodup_singleton _) ?_
        intro x hx hx2
        rw [List.map_singleton, List.mem_singleton] at hx2
        subst hx2
        exact hnot hx

/-- Folding the weekly step over any season list preserves key uniqueness. -/
theorem weekly_fold_nodup (db : AwardDb) (ws : Date) :
    ∀ (ss : List Season) (acc : List AwardRow × ℕ),
      (acc.1.map awardKey).Nodup →
      ((ss.foldl (weeklySeasonStep db ws) acc).1.map awardKey).Nodup := by
  intro ss
  induction ss with
  | nil => intro acc h; exact h
  | cons s ss ih =>
    intro acc h
    rw [List.foldl_cons]
    exact ih _ (weeklySeasonStep_nodup db ws acc s h)

/-- Folding the weekly step only appends to the award list. -/
theorem weekly_fold_pre (db : AwardDb) (ws : Date) :
    ∀ (ss : List Season) (acc : List AwardRow × ℕ),
      acc.1 <+: (ss.foldl (weeklySeasonStep db ws) acc).1 := by
  intro ss
  induction ss with
  | nil => intro acc; exact List.prefix_rfl
  | cons s ss ih =>
    intro acc
    rw [List.foldl_cons]
    exact (weeklySeasonStep_pre db ws acc s).trans (ih _)

/-- When every season in the list already has its award in the accumulator,
the whole fold is a no-op. -/
theorem weekly_fold_noop (db : AwardDb) (ws : Date) :
    ∀ (ss : List Season) (acc : List AwardRow × ℕ),
      (∀ s ∈ ss, ∃ a ∈ acc.1, awardKey a = (s.id, "week", ws, AwardType.player_of_week)) →
      ss.foldl (weeklySeasonStep db ws) acc = acc := by
  intro ss
  induction ss with
  | nil => intro acc _; rfl
  | cons s ss ih =>
    intro acc h
    rw [List.foldl_cons, weeklySeasonStep_key_exists db ws acc s (h s (List.mem_cons_self s ss))]
    exact ih acc (fun s2 hs2 => h s2 (List.mem_cons_of_mem s hs2))

/-- C4: weekly award selection preserves uniqueness of the
`(season, period_type, period_start, award_type)` key, never modifies an
existing award row (it only appends), and is a no-op — creating zero awards
and leaving the state unchanged — when every active season's award for the
period already exists. -/
theorem C4_award_uniqueness (db : AwardDb) (ws : Date)
    (huniq : (db.awards.map awardKey).Nodup) :
    ((calculate_weekly_awards db ws).2.awards.map awardKey).Nodup
    ∧ db.awards <+: (calculate_weekly_awards db ws).2.awards
    ∧ ((∀ s ∈ db.seasons, s.status = SeasonStatus.active →
          ∃ a ∈ db.awards, awardKey a = (s.id, "week", ws, AwardType.player_of_week)) →
        calculate_weekly_awards db ws = (0, db)) := by
  refine ⟨?_, ?_, ?_⟩
  · show ((((db.seasons.filter (fun s => decide (s.status = SeasonStatus.active))).foldl
      (weeklySeasonStep db ws) (db.awards, 0)).1.map awardKey)).Nodup
    exact weekly_fold_nodup db ws _ _ huniq
  · show db.awards <+: ((db.seasons.filter (fun s => decide (s.status = SeasonStatus.active))).foldl
      (weeklySeasonStep db ws) (db.awards, 0)).1
    exact weekly_fold_pre db ws _ (db.awards, 0)
  · intro h
    have hno := weekly_fold_noop db ws
      (db.seasons.filter (fun s => decide (s.status = SeasonStatus.active))) (db.awards, 0)
      (fun s hs => by
        rcases List.mem_filter.1 hs with ⟨hmem, hdec⟩
        exact h s hmem (of_decide_eq_true hdec))
    show (((db.seasons.filter (fun s => decide (s.status = SeasonStatus.active))).foldl
        (weeklySeasonStep db ws) (db.awards, 0)).2,
      { db with awards := ((db.seasons.filter (fun s => decide (s.status = SeasonStatus.active))).foldl
        (weeklySeasonStep db ws) (db.awards, 0)).1 }) = (0, db)
    rw [hno]

/-- C4 witness: re-running the weekly selection over a state whose only
active season already holds its Player of the Week award changes nothing. -/
theorem C4_witness :
    calculate_weekly_awards dbWeekDecided wsMonday = (0, dbWeekDecided) :=
  (C4_award_uniqueness dbWeekDecided wsMonday (by decide)).2.2 (by decide)

/-- C7: trend characterization.  No trend for the `season` period type or
without a current row; the previous period is day−1, week−7 days, or the
first of the prior month; no trend without a prior-period row or when the
prior impact score is zero; otherwise `up` above `previous × 1.05`, `down`
below `previous × 0.95`, `neutral` in between. -/
theorem C7_trend (stats : List StatsRow) (uid sid ptype : String) (cur : Date) :
    calculate_trend stats uid sid "season" cur = none
    ∧ previousPeriodStart "day" cur = some (cur.subDays 1)
    ∧ previousPeriodStart "week" cur = some (cur.subDays 7)
    ∧ previousPeriodStart "month" cur = some (prevMonthStart cur)
    ∧ previousPeriodStart "season" cur = none
    ∧ (findStats stats uid sid ptype cur = none →
        calculate_trend stats uid sid ptype cur = none)
    ∧ (∀ c ps, findStats stats uid sid ptype cur = some c →
        previousPeriodStart ptype cur = some ps →
        findStats stats uid sid ptype ps = none →
        calculate_trend stats uid sid ptype cur = none)
    ∧ (∀ c ps p, findStats stats uid sid ptype cur = some c →
        previousPeriodStart ptype cur = some ps →
        findStats stats uid sid ptype ps = some p →
        p.impact_score = 0 →
        calculate_trend stats uid sid ptype cur = none)
    ∧ (∀ c ps p, findStats stats uid sid ptype cur = some c →
        previousPeriodStart ptype cur = some ps →
        findStats stats uid sid ptype ps = some p →
        p.impact_score ≠ 0 →
        calculate_trend stats uid sid ptype cur = some (trendOf c p)) := by
  refine ⟨?_, rfl, rfl, rfl, rfl, ?_, ?_, ?_, ?_⟩
  · unfold calculate_trend
    cases findStats stats uid sid "season" cur with
    | none => rfl
    | some current => rfl
  · intro hc
    simp only [calculate_trend, hc]
  · intro c ps hc hps hp
    simp only [calculate_trend, hc, hps, hp]
  · intro c ps p hc hps hp hz
    simp only [calculate_trend, hc, hps, hp]
    rw [if_pos hz]
  · intro c ps p hc hps hp hz
    simp only [calculate_trend, hc, hps, hp]
    rw [if_neg hz]
    have h105 : p.impact_score * (1 + 5/100) = p.impact_score * (105/100 : ℚ) := by norm_num
    have h95 : p.impact_score * (1 - 5/100) = p.impact_score * (95/100 : ℚ) := by norm_num
    rw [trendOf, h105, h95]
    by_cases hA : p.impact_score * (105 / 100) < c.impact_score
    · rw [if_pos hA, if_pos hA]
    · rw [if_neg hA, if_neg hA]
      by_cases hB : c.impact_score < p.impact_score * (95 / 100)
      · rw [if_pos hB, if_pos hB]
      · rw [if_neg hB, if_neg hB]

/-- C7 witness: with a current impact of 121 against a previous-day impact
of 100, the trend is `up` (121 > 100 × 1.05). -/
theorem C7_witness :
    calculate_trend statsTrend "u1" "s1" "day" ⟨2025, 3, 10⟩ = some Trend.up := by
  have h := (C7_trend statsTrend "u1" "s1" "day" ⟨2025, 3, 10⟩).2.2.2.2.2.2.2.2
  have hc : findStats statsTrend "u1" "s1" "day" ⟨2025, 3, 10⟩ = some dayCur := by decide
  have hp : findStats statsTrend "u1" "s1" "day" (Date.subDays ⟨2025, 3, 10⟩ 1) = some dayPrev := by
    decide
  have hz : dayPrev.impact_score ≠ 0 := by decide
  have hres := h dayCur (Date.subDays ⟨2025, 3, 10⟩ 1) dayPrev hc rfl hp hz
  rw [hres]
  have : trendOf dayCur dayPrev = Trend.up := by
    unfold trendOf dayCur dayPrev statsRowU1
    norm_num
  rw [this]

/-- C8: the Rookie of the Year selection cannot complete.  On a concrete
season with a single rookie having four active weeks (an eligible winner),
the code path reaches the reference to `AwardType.ROOKIE_OF_YEAR`, a member
the `AwardType` enum does not declare, so Python raises `AttributeError`
and no award is ever created; and a rookie with only three active weeks is
filtered out by the minimum-participation requirement before that point. -/
theorem C8_rookie_year :
    calculate_rookie_of_year dbRookieYear "s1" = .error "AttributeError: ROOKIE_OF_YEAR"
    ∧ rookieYearScore dbRookieYear3 "s1" "u1" = none :=
  ⟨by decide, by decide⟩

/-- A season whose sorted rookie candidates have an absent leader (or no
candidates at all) adds no Rookie of the Month award and raises nothing. -/
theorem rookieMonthSeasonStep_skip (db : AwardDb) (ms : Date) (acc : List AwardRow × ℕ)
    (s : Season)
    (h : (((rookieMonthScores db s.id ms).insertionSort scoreOrd).head?.all
        (fun w => is_user_absent db w.user_id (ms.addDays 15))) = true) :
    rookieMonthSeasonStep db ms acc s = .ok acc := by
  simp only [rookieMonthSeasonStep]
  by_cases hrk : (firstSeasonPlayers db s.id).isEmpty = true
  · rw [if_pos hrk]
  · rw [if_neg hrk]
    by_cases hsc : (rookieMonthScores db s.id ms).isEmpty = true
    · rw [if_pos hsc]
    · rw [if_neg hsc]
      cases hh : ((rookieMonthScores db s.id ms).insertionSort scoreOrd).head? with
      | none => rfl
      | some w =>
        rw [hh] at h
        have habs : is_user_absent db w.user_id (ms.addDays 15) = true := h
        show (if is_user_absent db w.user_id (ms.addDays 15) = true then Except.ok acc
          else Except.error "AttributeError: ROOKIE_OF_MONTH") = Except.ok acc
        rw [if_pos habs]

/-- Folding the rookie-month step over seasons that all skip is a no-op. -/
theorem rookie_month_fold_skip (db : AwardDb) (ms : Date) :
    ∀ (ss : List Season) (acc : List AwardRow × ℕ),
      (∀ s ∈ ss, (((rookieMonthScores db s.id ms).insertionSort scoreOrd).head?.all
          (fun w => is_user_absent db w.user_id (ms.addDays 15))) = true) →
      foldExcept (rookieMonthSeasonStep db ms) ss acc = .ok acc := by
  intro ss
  induction ss with
  | nil => intro acc _; rfl
  | cons s ss ih =>
    intro acc h
    unfold foldExcept
    rw [rookieMonthSeasonStep_skip db ms acc s (h s (List.mem_cons_self s ss))]
    exact ih acc (fun s2 hs2 => h s2 (List.mem_cons_of_mem s hs2))

/-- C9: Rookie of the Month never falls back to a runner-up.  When, for
every active season, the best-average rookie produced by the sort is absent
at the month's mid-point (`period_start + 15` days), the run creates no
award at all and leaves the state unchanged — the next-best rookie is not
promoted. -/
theorem C9_no_runner_up (db : AwardDb) (ms : Date)
    (h : ∀ s ∈ db.seasons, s.status = SeasonStatus.active →
      (((rookieMonthScores db s.id ms).insertionSort scoreOrd).head?.all
        (fun w => is_user_absent db w.user_id (ms.addDays 15))) = true) :
    calculate_rookie_of_month db ms = .ok (0, db) := by
  have hfold := rookie_month_fold_skip db ms
    (db.seasons.filter (fun s => decide (s.status = SeasonStatus.active))) (db.awards, 0)
    (fun s hs => by
      rcases List.mem_filter.1 hs with ⟨hmem, hdec⟩
      exact h s hmem (of_decide_eq_true hdec))
  show (match foldExcept (rookieMonthSeasonStep db ms)
      (db.seasons.filter (fun s => decide (s.status = SeasonStatus.active))) (db.awards, 0) with
    | .error e => .error e
    | .ok fin => .ok (fin.2, { db with awards := fin.1 })) = Except.ok (0, db)
  rw [hfold]

/-- C9 witness: the concrete March database whose only rookie candidate is
absent on March 16 yields no award and an unchanged state. -/
theorem C9_witness :
    calculate_rookie_of_month dbRookieMonthAbsent msMarch = .ok (0, dbRookieMonthAbsent) :=
  C9_no_runner_up dbRookieMonthAbsent msMarch (by decide)

/-- Membership in the leaderboard base query: the stats row is a stored
stats row matching the requested season, period type and period start; the
user is the joined user row of that stats row; and the user is not
retired. -/
theorem leaderboardRows_mem {stats : List StatsRow} {users : List UserRow}
    {season_id ptype : String} {pstart : Date} {x : StatsRow × UserRow}
    (hx : x ∈ leaderboardRows stats users season_id ptype pstart) :
    x.1 ∈ stats ∧ x.2 ∈ users ∧ x.2.id = x.1.user_id
    ∧ x.1.season_id = season_id ∧ x.1.period_type = ptype ∧ x.1.period_start = pstart
    ∧ x.2.status ≠ UserStatus.retired := by
  unfold leaderboardRows at hx
  rcases List.mem_filter.1 hx with ⟨hmem, hcond⟩
  rcases List.mem_flatMap.1 hmem with ⟨r, hr, hxr⟩
  rcases List.mem_map.1 hxr with ⟨u, hu, hxu⟩
  rcases List.mem_filter.1 hu with ⟨huu, hid⟩
  subst hxu
  simp only [Bool.and_eq_true, beq_iff_eq, decide_eq_true_eq] at hcond hid
  exact ⟨hr, huu, hid, hcond.1.1.1, hcond.1.1.2, hcond.1.2, hcond.2⟩

/-- Equal sort keys force equal emails (the email is the final component of
the lexicographic key). -/
theorem sortKey_eq_email {sb : SortColumn} {ord : SortOrder} {a b : StatsRow × UserRow}
    (h : sortKey sb ord a = sortKey sb ord b) : a.2.email = b.2.email :=
  congrArg (fun x => (ofLex (ofLex x).2).2) h

/-- C6: the returned leaderboard page is sorted by the requested column in
the requested direction with the always-applied tie-break (commits
descending, then email ascending); the underlying relation is total; under
the database invariants (unique user emails, one stats row per user for the
queried period key) it is antisymmetric on the returned rows, so the
ordering is a total order that fully determines the result; and retired
players never appear. -/
theorem C6_total_order (stats : List StatsRow) (users : List UserRow)
    (season_id ptype : String) (pstart : Date) (sb : SortColumn) (ord : SortOrder)
    (page limit : ℕ)
    (husers : (users.map (fun u => u.email)).Nodup)
    (hstats : ((stats.filter (fun r => r.season_id == season_id && r.period_type == ptype
        && decide (r.period_start = pstart))).map (fun r => r.user_id)).Nodup) :
    List.Sorted (lbLe sb ord)
      (get_leaderboard stats users season_id ptype pstart sb ord page limit).1
    ∧ (∀ a ∈ (get_leaderboard stats users season_id ptype pstart sb ord page limit).1,
        ∀ b ∈ (get_leaderboard stats users season_id ptype pstart sb ord page limit).1,
          lbLe sb ord a b ∨ lbLe sb ord b a)
    ∧ (∀ a ∈ (get_leaderboard stats users season_id ptype pstart sb ord page limit).1,
        ∀ b ∈ (get_leaderboard stats users season_id ptype pstart sb ord page limit).1,
          lbLe sb ord a b → lbLe sb ord b a → a = b)
    ∧ (∀ x ∈ (get_leaderboard stats users season_id ptype pstart sb ord page limit).1,
        x.2.status ≠ UserStatus.retired) := by
  have hsorted : List.Sorted (lbLe sb ord)
      ((leaderboardRows stats users season_id ptype pstart).insertionSort (lbLe sb ord)) :=
    List.sorted_insertionSort (lbLe sb ord) _
  have hsub : List.Sublist
      (get_leaderboard stats users season_id ptype pstart sb ord page limit).1
      ((leaderboardRows stats users season_id ptype pstart).insertionSort (lbLe sb ord)) := by
    show List.Sublist
      ((((leaderboardRows stats users season_id ptype pstart).insertionSort
        (lbLe sb ord)).drop ((page - 1) * limit)).take limit)
      ((leaderboardRows stats users season_id ptype pstart).insertionSort (lbLe sb ord))
    exact (List.take_sublist _ _).trans (List.drop_sublist _ _)
  have hmemrows : ∀ x ∈ (get_leaderboard stats users season_id ptype pstart sb ord page limit).1,
      x ∈ leaderboardRows stats users season_id ptype pstart :=
    fun x hx => (List.mem_insertionSort _).1 (hsub.subset hx)
  refine ⟨List.Pairwise.sublist hsub hsorted, ?_, ?_, ?_⟩
  · exact fun a _ b _ => le_total (sortKey sb ord a) (sortKey sb ord b)
  · intro a ha b hb hab hba
    have hk : sortKey sb ord a = sortKey sb ord b := le_antisymm hab hba
    have hem : a.2.email = b.2.email := sortKey_eq_email hk
    have hA := leaderboardRows_mem (hmemrows a ha)
    have hB := leaderboardRows_mem (hmemrows b hb)
    have hu : a.2 = b.2 := List.inj_on_of_nodup_map husers hA.2.1 hB.2.1 hem
    have hidab : a.1.user_id = b.1.user_id := by rw [← hA.2.2.1, ← hB.2.2.1, hu]
    have hin1 : a.1 ∈ stats.filter (fun r => r.season_id == season_id
        && r.period_type == ptype && decide (r.period_start = pstart)) := by
      refine List.mem_filter.2 ⟨hA.1, ?_⟩
      simp only [Bool.and_eq_true, beq_iff_eq, decide_eq_true_eq]
      exact ⟨⟨hA.2.2.2.1, hA.2.2.2.2.1⟩, hA.2.2.2.2.2.1⟩
    have hin2 : b.1 ∈ stats.filter (fun r => r.season_id == season_id
        && r.period_type == ptype && decide (r.period_start = pstart)) := by
      refine List.mem_filter.2 ⟨hB.1, ?_⟩
      simp only [Bool.and_eq_true, beq_iff_eq, decide_eq_true_eq]
      exact ⟨⟨hB.2.2.2.1, hB.2.2.2.2.1⟩, hB.2.2.2.2.2.1⟩
    have hst : a.1 = b.1 := List.inj_on_of_nodup_map hstats hin1 hin2 hidab
    exact Prod.ext hst hu
  · intro x hx
    exact (leaderboardRows_mem (hmemrows x hx)).2.2.2.2.2.2

/-- C6 witness: a concrete one-row leaderboard query, sorted by impact score
descending, is sorted under the full ordering. -/
theorem C6_witness :
    List.Sorted (lbLe SortColumn.impact_score SortOrder.desc)
      (get_leaderboard [statsRowU1] usersLb "s1" "week" wsMonday
        SortColumn.impact_score SortOrder.desc 1 50).1 :=
  (C6_total_order [statsRowU1] usersLb "s1" "week" wsMonday
    SortColumn.impact_score SortOrder.desc 1 50 (by decide) (by decide)).1

end GitLeague
